import Mathlib

set_option maxRecDepth 16000

/-!
Verification development for the PDF-classification pipeline
(`main_clasificacion_1.py`, vision/hybrid variant, and
`main_clasificacion_Text.py`, text-only variant).

The Python code is shallowly embedded here:

* Python strings are modelled as `String` / `List Char` (Python indexes and
  slices by code point, as Lean's `List Char` does);
* JSON values produced by `json.loads` are modelled by the inductive `JVal`,
  with numbers as exact rationals (`ℚ`);
* Python floats are modelled as exact rationals extended with the special
  values `inf`, `-inf`, `nan` (`PyNum`); binary floating-point rounding error
  is outside the model;
* exceptions are modelled by `Except` / explicit error branches: every
  statement in the Python `try:` block that can raise is represented by a
  branch that produces the corresponding error value, and the `except`
  handlers are total functions on those error values.
-/

/-- JSON values as produced by `json.loads`: `null`, booleans, numbers
(exact rationals), strings, arrays and objects.  Objects keep their key/value
pairs in source order; lookup takes the last binding, as a Python `dict`
built from JSON does. -/
inductive JVal where
  | null : JVal
  | bool : Bool → JVal
  | num : ℚ → JVal
  | str : String → JVal
  | arr : List JVal → JVal
  | obj : List (String × JVal) → JVal

/-- The backtick character, code point 96 (written via `Char.ofNat` so the
source contains no literal backtick). -/
def btick : Char := Char.ofNat 96

/-- The opening-brace character, code point 123. -/
def lbrace : Char := Char.ofNat 123

/-- The closing-brace character, code point 125. -/
def rbrace : Char := Char.ofNat 125

/-- ASCII whitespace as recognised by Python's `str.strip` and the regex
class `\s`: space, tab, newline, carriage return, vertical tab, form feed. -/
def is_py_ws (c : Char) : Bool :=
  c = ' ' || c = '\t' || c = '\n' || c = '\r' || c = Char.ofNat 11 || c = Char.ofNat 12

/-- Embedding of `re.sub(r'```(?:json)?|```', '', s)`: delete every run of
three backticks, together with an immediately following `json` tag. -/
def remove_fences : List Char → List Char
  | [] => []
  | [c] => [c]
  | [c, c2] => [c, c2]
  | c :: c2 :: c3 :: 'j' :: 's' :: 'o' :: 'n' :: rest3 =>
    if c = btick ∧ c2 = btick ∧ c3 = btick then remove_fences rest3
    else c :: remove_fences (c2 :: c3 :: 'j' :: 's' :: 'o' :: 'n' :: rest3)
  | c :: c2 :: c3 :: rest2 =>
    if c = btick ∧ c2 = btick ∧ c3 = btick then remove_fences rest2
    else c :: remove_fences (c2 :: c3 :: rest2)

/-- Embedding of Python `str.strip()`: drop leading and trailing whitespace. -/
def strip_ws (l : List Char) : List Char :=
  (((l.dropWhile is_py_ws).reverse).dropWhile is_py_ws).reverse

/-- Embedding of the second cleaning regex (an anchored `re.sub` deleting
every leading non-brace character): drop everything before the first
opening brace (the whole string if there is none). -/
def drop_before_lbrace (l : List Char) : List Char :=
  l.dropWhile (fun c => ¬ (c = lbrace))

/-- Embedding of the third cleaning regex (an end-anchored `re.sub` deleting
every trailing non-brace character): drop everything after the last
closing brace (the whole string if there is none). -/
def drop_after_rbrace (l : List Char) : List Char :=
  ((l.reverse).dropWhile (fun c => ¬ (c = rbrace))).reverse

/-- The JSON-isolation pipeline applied to the (already `.strip()`-ed)
message content: strip Markdown fences, strip whitespace, and cut the string
down to the span from the first opening brace to the last closing brace.
This is lines 151–154 of `main_clasificacion_1.py` and lines 242–246 of
`main_clasificacion_Text.py`. -/
def json_cleaned_chars (l : List Char) : List Char :=
  drop_after_rbrace (drop_before_lbrace (strip_ws (remove_fences (strip_ws l))))

/-- String-level wrapper for `json_cleaned_chars`. -/
def json_cleaned (s : String) : String :=
  String.mk (json_cleaned_chars s.toList)

/-- Numeric value of a list of decimal digit characters. -/
def nat_of_digits (l : List Char) : Nat :=
  l.foldl (fun a c => 10 * a + (c.toNat - 48)) 0

/-- Hexadecimal value of one hex digit character (used for `\uXXXX`). -/
def hex_val (c : Char) : Nat :=
  if c.isDigit then c.toNat - 48
  else if 'a' ≤ c ∧ c ≤ 'f' then c.toNat - 87
  else c.toNat - 55

/-- Is this character a hexadecimal digit? -/
def is_hex (c : Char) : Bool :=
  c.isDigit || ( 'a' ≤ c && c ≤ 'f' ) || ( 'A' ≤ c && c ≤ 'F' )

/-- Skip JSON whitespace (space, tab, newline, carriage return). -/
def skip_jws (l : List Char) : List Char :=
  l.dropWhile (fun c => c = ' ' || c = '\t' || c = '\n' || c = '\r')

/-- Parse the body of a JSON string literal (after the opening quote),
accumulating decoded characters in reverse; returns the decoded string and
the remaining input.  Handles the standard JSON escapes; `\uXXXX` is decoded
through `Char.ofNat`. -/
def jstring_body (acc : List Char) : List Char → Option (String × List Char)
  | [] => none
  | '"' :: rest => some (String.mk acc.reverse, rest)
  | '\\' :: '"' :: rest => jstring_body ( '"' :: acc) rest
  | '\\' :: '\\' :: rest => jstring_body ( '\\' :: acc) rest
  | '\\' :: '/' :: rest => jstring_body ( '/' :: acc) rest
  | '\\' :: 'b' :: rest => jstring_body (Char.ofNat 8 :: acc) rest
  | '\\' :: 'f' :: rest => jstring_body (Char.ofNat 12 :: acc) rest
  | '\\' :: 'n' :: rest => jstring_body ( '\n' :: acc) rest
  | '\\' :: 'r' :: rest => jstring_body ( '\r' :: acc) rest
  | '\\' :: 't' :: rest => jstring_body ( '\t' :: acc) rest
  | '\\' :: 'u' :: h1 :: h2 :: h3 :: h4 :: rest =>
    if is_hex h1 ∧ is_hex h2 ∧ is_hex h3 ∧ is_hex h4 then
      jstring_body
        (Char.ofNat (((hex_val h1 * 16 + hex_val h2) * 16 + hex_val h3) * 16 + hex_val h4) :: acc)
        rest
    else none
  | '\\' :: _ => none
  | c :: rest => if c.toNat < 32 then none else jstring_body (c :: acc) rest

/-- Parse a JSON number (sign, integer part without leading zeros, optional
fraction, optional exponent) into an exact rational.  Returns `none` exactly
where `json.loads` would raise a `JSONDecodeError` at this token. -/
def jnumber (cs : List Char) : Option (JVal × List Char) :=
  let signed : Bool × List Char := match cs with
    | '-' :: r => (true, r)
    | _ => (false, cs)
  let neg := signed.1
  let cs1 := signed.2
  let ispan := cs1.span (fun c => c.isDigit)
  let ids := ispan.1
  let r1 := ispan.2
  if ids = [] then none
  else if 1 < ids.length ∧ ids.headD '0' = '0' then none
  else
    let fspan : List Char × List Char × Bool := match r1 with
      | '.' :: r => let s := r.span (fun c => c.isDigit); (s.1, s.2, true)
      | _ => ([], r1, false)
    let fds := fspan.1
    let r2 := fspan.2.1
    if fspan.2.2 ∧ fds = [] then none
    else
      let espan : Option (List Char) := match r2 with
        | 'e' :: r => some r
        | 'E' :: r => some r
        | _ => none
      match espan with
      | none =>
        let mant : ℤ := (nat_of_digits (ids ++ fds) : ℤ)
        let mant := if neg then -mant else mant
        some (JVal.num ((mant : ℚ) * (10 : ℚ) ^ (-(fds.length : ℤ))), r2)
      | some r =>
        let esigned : ℤ × List Char := match r with
          | '+' :: t => ((1 : ℤ), t)
          | '-' :: t => ((-1 : ℤ), t)
          | _ => ((1 : ℤ), r)
        let dspan := esigned.2.span (fun c => c.isDigit)
        if dspan.1 = [] then none
        else
          let ex : ℤ := esigned.1 * (nat_of_digits dspan.1 : ℤ)
          let mant : ℤ := (nat_of_digits (ids ++ fds) : ℤ)
          let mant := if neg then -mant else mant
          some (JVal.num ((mant : ℚ) * (10 : ℚ) ^ (ex - (fds.length : ℤ))), dspan.2)

mutual

/-- Fuel-indexed recursive-descent parser for one JSON value.  Consumes
leading whitespace; returns the value and the remaining input, or `none` on
a syntax error (the situations in which `json.loads` raises
`JSONDecodeError`). -/
def jparse_val : Nat → List Char → Option (JVal × List Char)
  | 0, _ => none
  | Nat.succ fuel, cs =>
    match skip_jws cs with
    | 'n' :: 'u' :: 'l' :: 'l' :: r => some (JVal.null, r)
    | 't' :: 'r' :: 'u' :: 'e' :: r => some (JVal.bool true, r)
    | 'f' :: 'a' :: 'l' :: 's' :: 'e' :: r => some (JVal.bool false, r)
    | '"' :: r =>
      match jstring_body [] r with
      | some sr => some (JVal.str sr.1, sr.2)
      | none => none
    | '[' :: r => jparse_arr fuel r
    | c :: r =>
      if c = lbrace then jparse_obj fuel r
      else jnumber (c :: r)
    | [] => none

/-- Parse the inside of a JSON array, after the opening bracket. -/
def jparse_arr : Nat → List Char → Option (JVal × List Char)
  | 0, _ => none
  | Nat.succ fuel, cs =>
    match skip_jws cs with
    | ']' :: r => some (JVal.arr [], r)
    | _ => jparse_arr_items fuel cs []

/-- Parse the comma-separated items of a nonempty JSON array. -/
def jparse_arr_items : Nat → List Char → List JVal → Option (JVal × List Char)
  | 0, _, _ => none
  | Nat.succ fuel, cs, acc =>
    match jparse_val fuel cs with
    | none => none
    | some vr =>
      match skip_jws vr.2 with
      | ',' :: r => jparse_arr_items fuel r (vr.1 :: acc)
      | ']' :: r => some (JVal.arr (vr.1 :: acc).reverse, r)
      | _ => none

/-- Parse the inside of a JSON object, after the opening brace. -/
def jparse_obj : Nat → List Char → Option (JVal × List Char)
  | 0, _ => none
  | Nat.succ fuel, cs =>
    match skip_jws cs with
    | c :: r =>
      if c = rbrace then some (JVal.obj [], r)
      else jparse_obj_items fuel cs []
    | [] => none

/-- Parse the comma-separated `"key": value` members of a nonempty JSON
object. -/
def jparse_obj_items : Nat → List Char → List (String × JVal) →
    Option (JVal × List Char)
  | 0, _, _ => none
  | Nat.succ fuel, cs, acc =>
    match skip_jws cs with
    | '"' :: r =>
      match jstring_body [] r with
      | none => none
      | some kr =>
        match skip_jws kr.2 with
        | ':' :: r2 =>
          match jparse_val fuel r2 with
          | none => none
          | some vr =>
            match skip_jws vr.2 with
            | ',' :: r3 => jparse_obj_items fuel r3 ((kr.1, vr.1) :: acc)
            | c :: r3 =>
              if c = rbrace then some (JVal.obj ((kr.1, vr.1) :: acc).reverse, r3)
              else none
            | [] => none
        | _ => none
    | _ => none

end

/-- Embedding of `json.loads`: parse a complete JSON document, requiring
that nothing but whitespace follows the value (`json.loads` raises
`Extra data` otherwise).  `none` models `JSONDecodeError`. -/
def jparse (s : String) : Option JVal :=
  match jparse_val (2 * s.length + 8) s.toList with
  | some vr => if skip_jws vr.2 = [] then some vr.1 else none
  | none => none

/-- A Python float value: an exact rational, or one of the special values
`inf`, `-inf`, `nan` (binary floating-point rounding error is outside the
model). -/
inductive PyNum where
  | fin : ℚ → PyNum
  | pinf : PyNum
  | ninf : PyNum
  | nan : PyNum

/-- Embedding of Python `float(s)` for strings: optional surrounding
whitespace, optional sign, then either an `inf`/`infinity`/`nan` word
(case-insensitive) or a decimal literal with at least one digit and an
optional exponent.  Returns `none` exactly where `float()` raises
`ValueError`. -/
def py_float (s : String) : Option PyNum :=
  let cs := strip_ws s.toList
  let signed : Bool × List Char := match cs with
    | '+' :: r => (false, r)
    | '-' :: r => (true, r)
    | _ => (false, cs)
  let neg := signed.1
  let cs1 := signed.2
  let lower := cs1.map Char.toLower
  if lower = [ 'i', 'n', 'f' ] ∨ lower = [ 'i', 'n', 'f', 'i', 'n', 'i', 't', 'y' ] then
    some (if neg then PyNum.ninf else PyNum.pinf)
  else if lower = [ 'n', 'a', 'n' ] then some PyNum.nan
  else
    let ispan := cs1.span (fun c => c.isDigit)
    let ids := ispan.1
    let r1 := ispan.2
    let fspan : List Char × List Char := match r1 with
      | '.' :: r => r.span (fun c => c.isDigit)
      | _ => ([], r1)
    let fds := fspan.1
    let r2 := fspan.2
    if ids = [] ∧ fds = [] then none
    else
      let espan : Option (List Char) := match r2 with
        | 'e' :: r => some r
        | 'E' :: r => some r
        | _ => none
      match espan with
      | none =>
        if r2 = [] then
          let mant : ℤ := (nat_of_digits (ids ++ fds) : ℤ)
          let mant := if neg then -mant else mant
          some (PyNum.fin ((mant : ℚ) * (10 : ℚ) ^ (-(fds.length : ℤ))))
        else none
      | some r =>
        let esigned : ℤ × List Char := match r with
          | '+' :: t => ((1 : ℤ), t)
          | '-' :: t => ((-1 : ℤ), t)
          | _ => ((1 : ℤ), r)
        let dspan := esigned.2.span (fun c => c.isDigit)
        if dspan.1 = [] ∨ ¬ (dspan.2 = []) then none
        else
          let ex : ℤ := esigned.1 * (nat_of_digits dspan.1 : ℤ)
          let mant : ℤ := (nat_of_digits (ids ++ fds) : ℤ)
          let mant := if neg then -mant else mant
          some (PyNum.fin ((mant : ℚ) * (10 : ℚ) ^ (ex - (fds.length : ℤ))))

/-- Embedding of `min(1.0, score)` for a Python numeric value.  Python's
two-argument `min(a, b)` returns `b` if `b < a` and otherwise `a`; since
every comparison with `nan` is false, `min(1.0, nan) = 1.0`. -/
def py_min_one : PyNum → PyNum
  | PyNum.fin q => if q < 1 then PyNum.fin q else PyNum.fin 1
  | PyNum.pinf => PyNum.fin 1
  | PyNum.ninf => PyNum.ninf
  | PyNum.nan => PyNum.fin 1

/-- Embedding of `score = max(0.0, min(1.0, score))`: Python's `max(a, b)`
returns `b` if `b > a` and otherwise `a`.  The result is always a finite
value in `[0, 1]`, returned as a rational. -/
def py_clamp01 (p : PyNum) : ℚ :=
  match py_min_one p with
  | PyNum.fin q => if 0 < q then q else 0
  | _ => 0

/-- Round a rational to the nearest integer, ties to even, as Python's
`round` does on an exactly-representable value. -/
def round_half_even (q : ℚ) : ℤ :=
  if q - ⌊q⌋ < 1/2 then ⌊q⌋
  else if 1/2 < q - ⌊q⌋ then ⌊q⌋ + 1
  else if ⌊q⌋ % 2 = 0 then ⌊q⌋ else ⌊q⌋ + 1

/-- Embedding of Python `round(score, 2)` (used only by the vision/hybrid
variant): round to the nearest multiple of `1/100`, ties to even. -/
def py_round2 (q : ℚ) : ℚ :=
  (round_half_even (q * 100) : ℚ) / 100

/-- The closed set of valid category labels (`CATEGORIAS_VALIDAS`, identical
in both source files). -/
def CATEGORIAS_VALIDAS : List String :=
  [ "QUEJA_RECLAMO", "CONTRATO", "RESOLUCION_ADMINISTRATIVA",
    "INFORME_TECNICO", "COMUNICACION_INTERNA" ]

/-- Embedding of Python `str.upper()` (ASCII; the category labels involved
are ASCII). -/
def py_upper (s : String) : String :=
  String.mk (s.toList.map Char.toUpper)

/-- Embedding of `str.replace(" ", "_")`: replace every space by an
underscore (for single-character patterns `str.replace` is a character
map). -/
def py_underscore (s : String) : String :=
  String.mk (s.toList.map (fun c => if c = ' ' then '_' else c))

/-- Embedding of `str.replace(",", ".")` on the score string. -/
def py_comma_to_dot (s : String) : String :=
  String.mk (s.toList.map (fun c => if c = ',' then '.' else c))

/-- Embedding of `s.endswith("S")`: the last character is `S`. -/
def ends_with_s (s : String) : Bool :=
  match s.toList.reverse with
  | 'S' :: _ => true
  | _ => false

/-- Embedding of `s[:-1]`: drop the last character. -/
def py_drop_last (s : String) : String :=
  String.mk (s.toList.reverse.drop 1).reverse

/-- Embedding of `s[:n]`: keep the first `n` characters. -/
def py_take (s : String) (n : Nat) : String :=
  String.mk (s.toList.take n)

/-- Category normalization, lines 160–167 of the hybrid variant and lines
253–259 of the text variant: uppercase, replace spaces by underscores,
strip a trailing `S` when the remainder is a valid category, and replace
anything outside the valid set by `REVISION_MANUAL`. -/
def norm_cat (c : String) : String :=
  let cat := py_underscore (py_upper c)
  let cat :=
    if ends_with_s cat = true ∧ py_drop_last cat ∈ CATEGORIAS_VALIDAS then py_drop_last cat
    else cat
  if cat ∈ CATEGORIAS_VALIDAS then cat else "REVISION_MANUAL"

/-- Lookup in a JSON object as a Python `dict` built by `json.loads` would
resolve it: the last binding of the key wins. -/
def dict_lookup (kvs : List (String × JVal)) (k : String) : Option JVal :=
  match kvs.reverse.find? (fun p => p.1 = k) with
  | some p => some p.2
  | none => none

/-- Embedding of `result.get(k, dflt)`. -/
def py_dict_get (kvs : List (String × JVal)) (k : String) (dflt : JVal) : JVal :=
  (dict_lookup kvs k).getD dflt

/-- Score normalization, lines 169–176 of the hybrid variant and lines
261–268 of the text variant: a string score is parsed as a float after a
comma-to-dot substitution, defaulting to `0.5` on a `ValueError`; the value
is then clamped by `max(0.0, min(1.0, score))`.  Booleans take part in the
clamp as the numbers `0`/`1` (Python `bool` is an `int`).  A `null`, array
or object score makes the comparison in `min` raise a `TypeError`, which the
enclosing handler turns into an `ERROR` result; this is the `Except.error`
branch, carrying the Python exception message. -/
def norm_score (v : JVal) : Except String ℚ :=
  match v with
  | JVal.num q => Except.ok (py_clamp01 (PyNum.fin q))
  | JVal.bool b => Except.ok (py_clamp01 (PyNum.fin (if b then 1 else 0)))
  | JVal.str s =>
    match py_float (py_comma_to_dot s) with
    | some p => Except.ok (py_clamp01 p)
    | none => Except.ok (py_clamp01 (PyNum.fin (1/2)))
  | JVal.null =>
    Except.error "'<' not supported between instances of 'NoneType' and 'float'"
  | JVal.arr _ =>
    Except.error "'<' not supported between instances of 'list' and 'float'"
  | JVal.obj _ =>
    Except.error "'<' not supported between instances of 'dict' and 'float'"

/-- A classification result: the dict
`\x7b"categoria": ..., "score": ..., "evidencia": ...\x7d` returned by
`classify_document_hybrid` / `classify_document_text_only` /
`process_pdf`.  `categoria` is always a string and `score` always a number
in the source; `evidencia` is whatever JSON value the model supplied (a
string on every non-inference path). -/
structure NRes where
  categoria : String
  score : ℚ
  evidencia : JVal

/-- The ways the normalization body can leave its happy path:
`emptyPayload` is the `else` branch for an empty cleaned string (no JSON
found), `jsonDecode` models a `JSONDecodeError` from `json.loads`, and
`pyExc` models any other exception raised inside the `try` block
(`AttributeError` from calling `.upper()`/`.get` on a non-string/non-dict,
`TypeError` from comparing an unorderable score). -/
inductive NormFailure where
  | emptyPayload : NormFailure
  | jsonDecode : String → NormFailure
  | pyExc : String → NormFailure

/-- The `JSONDecodeError` message.  Modelled as a fixed representative
message: only its presence (never its text) influences control flow. -/
def json_err_msg : String := "Expecting value: line 1 column 1 (char 0)"

/-- The `AttributeError` message raised by `cat.upper()` when the
`categoria` field is not a string. -/
def attr_err_msg : String := "object has no attribute 'upper'"

/-- The field-normalization stage applied to a parsed JSON payload: read
and normalize `categoria`, read and clamp `score`, and look up `evidencia`.
Returns the normalized category, the clamped score, and the raw `evidencia`
lookup (the per-variant default is applied later), or the failure that the
corresponding Python code would raise. -/
def fields_core (v : JVal) : Except NormFailure (String × ℚ × Option JVal) :=
  match v with
  | JVal.obj kvs =>
    match py_dict_get kvs "categoria" (JVal.str "") with
    | JVal.str c =>
      let cat := norm_cat c
      match norm_score (py_dict_get kvs "score" (JVal.num (1/2))) with
      | Except.ok q => Except.ok (cat, q, dict_lookup kvs "evidencia")
      | Except.error m => Except.error (NormFailure.pyExc m)
    | _ => Except.error (NormFailure.pyExc attr_err_msg)
  | _ => Except.error (NormFailure.pyExc "object has no attribute 'get'")

/-- The full normalization body applied to raw response content: clean the
string, short-circuit if nothing is left, parse the JSON, then normalize
the fields.  This is the shared portion of lines 147–182 of the hybrid
variant and lines 238–274 of the text variant; the two variants differ only
in how they round the score and render the failures, which is applied on
top of this function. -/
def norm_core (content : String) : Except NormFailure (String × ℚ × Option JVal) :=
  let cleaned := json_cleaned content
  if cleaned = "" then Except.error NormFailure.emptyPayload
  else
    match jparse cleaned with
    | some v => fields_core v
    | none => Except.error (NormFailure.jsonDecode json_err_msg)

/-- Turn the outcome of the normalization body into the dict returned by
`classify_document_text_only` (lines 270–281): the score is left as
clamped, the evidence default is `"Sin evidencia"`, an empty payload gives
the `REVISION_MANUAL` / `"JSON ilegible"` sentinel, and both exception
classes fall into the generic `except Exception` handler producing
`ERROR` with `str(e)[:100]`. -/
def finish_text : Except NormFailure (String × ℚ × Option JVal) → NRes
  | Except.ok r => ⟨r.1, r.2.1, (r.2.2).getD (JVal.str "Sin evidencia")⟩
  | Except.error NormFailure.emptyPayload =>
    ⟨"REVISION_MANUAL", 0, JVal.str "JSON ilegible"⟩
  | Except.error (NormFailure.jsonDecode m) => ⟨"ERROR", 0, JVal.str (py_take m 100)⟩
  | Except.error (NormFailure.pyExc m) => ⟨"ERROR", 0, JVal.str (py_take m 100)⟩

/-- Turn the outcome of the normalization body into the dict returned by
`classify_document_hybrid` (lines 178–189): the score is additionally
rounded to two decimals, the evidence default is
`"Sin evidencia detallada"`, an empty payload gives the sentinel with
`"El modelo no retornó un JSON válido."`, a `JSONDecodeError` is caught
separately as `REVISION_MANUAL` with the message truncated to 50
characters, and any other exception gives `ERROR`. -/
def finish_hybrid : Except NormFailure (String × ℚ × Option JVal) → NRes
  | Except.ok r => ⟨r.1, py_round2 r.2.1, (r.2.2).getD (JVal.str "Sin evidencia detallada")⟩
  | Except.error NormFailure.emptyPayload =>
    ⟨"REVISION_MANUAL", 0, JVal.str "El modelo no retornó un JSON válido."⟩
  | Except.error (NormFailure.jsonDecode m) =>
    ⟨"REVISION_MANUAL", 0, JVal.str ("Error de sintaxis JSON: " ++ py_take m 50)⟩
  | Except.error (NormFailure.pyExc m) =>
    ⟨"ERROR", 0, JVal.str ("Fallo en inferencia: " ++ py_take m 100)⟩

/-- The response normalizer of the text-only variant: raw LLM response
content in, classification dict out.  Total: every failure of the body is
handled. -/
def normalize_text (content : String) : NRes :=
  finish_text (norm_core content)

/-- The response normalizer of the vision/hybrid variant. -/
def normalize_hybrid (content : String) : NRes :=
  finish_hybrid (norm_core content)

/-- The text-variant normalizer applied to an already-parsed JSON payload
(the portion of the code after `result = json.loads(cleaned)`). -/
def normalize_parsed_text (v : JVal) : NRes :=
  finish_text (fields_core v)

/-- The hybrid-variant normalizer applied to an already-parsed JSON
payload. -/
def normalize_parsed_hybrid (v : JVal) : NRes :=
  finish_hybrid (fields_core v)

/-- Re-serialization of a classification result: a JSON object carrying the
result's `categoria`, `score` and `evidencia` fields, as produced by
dumping the returned dict back to JSON and parsing it again. -/
def reser (r : NRes) : JVal :=
  JVal.obj [ ("categoria", JVal.str r.categoria), ("score", JVal.num r.score),
             ("evidencia", r.evidencia) ]

/-- `classify_document_text_only`, seen from the outside: the inference
call either returns response content or raises (`Except.error`, absorbed by
the generic handler as `ERROR` with `str(e)[:100]`); returned content goes
through the response normalizer. -/
def classify_document_text_only (resp : Except String String) : NRes :=
  match resp with
  | Except.ok content => normalize_text content
  | Except.error e => ⟨"ERROR", 0, JVal.str (py_take e 100)⟩

/-- `classify_document_hybrid`, seen from the outside: an inference failure
is absorbed as `ERROR` with `"Fallo en inferencia: " + str(e)[:100]`;
returned content goes through the response normalizer. -/
def classify_document_hybrid (resp : Except String String) : NRes :=
  match resp with
  | Except.ok content => normalize_hybrid content
  | Except.error e => ⟨"ERROR", 0, JVal.str ("Fallo en inferencia: " ++ py_take e 100)⟩

/-- Collapse runs of whitespace into single spaces
(`re.sub(r'\s+', ' ', s)`); the Boolean records whether the previous
character was part of a whitespace run. -/
def collapse_ws_go : Bool → List Char → List Char
  | _, [] => []
  | prevWs, c :: rest =>
    if is_py_ws c then
      if prevWs then collapse_ws_go true rest
      else ' ' :: collapse_ws_go true rest
    else c :: collapse_ws_go false rest

/-- Embedding of `re.sub(r'\s+', ' ', s)`. -/
def collapse_ws (l : List Char) : List Char :=
  collapse_ws_go false l

/-- `extract_text_smart` (text variant, lines 108–164): page 1 in full,
the first 500 characters of page 2 when present, an omission marker plus
the final page for documents longer than two pages; whitespace-collapsed,
stripped, and truncated to `max_chars`. -/
def extract_text_smart (pages : List String) (max_chars : Nat) : String :=
  let n := pages.length
  let t0 := if 0 < n then (pages.headD "") ++ "\n" else ""
  let t1 := if 1 < n then py_take (pages.getD 1 "") 500 ++ "\n" else ""
  let t2 := if 2 < n then "\n...[CONTENIDO OMITIDO]...\n" ++ ((pages.getLast?).getD "") else ""
  py_take (String.mk (strip_ws (collapse_ws (t0 ++ t1 ++ t2).toList))) max_chars

/-- A PDF document as the pipeline sees it after a successful `fitz.open`:
the list of page texts, and an optional page-level extraction/render
exception (`page.get_text` / `page.get_pixmap` / image decoding), carrying
its message.  A document whose `fitz.open` raises is modelled by handing
`process_pdf` an `Except.error` instead of a document. -/
structure PdfDoc where
  pages : List String
  pageExc : Option String

/-- `process_pdf` of the text-only variant (lines 287–347), with the
inference client abstracted as `llm` (text prompt in, response content or
exception out).  Returns the classification dict together with a Boolean
recording whether `doc.close()` ran before the function returned. -/
def process_pdf_text (openRes : Except String PdfDoc)
    (llm : String → Except String String) : NRes × Bool :=
  match openRes with
  | Except.error e => (⟨"ARCHIVO_CORRUPTO", 0, JVal.str e⟩, false)
  | Except.ok doc =>
    if doc.pages.length = 0 then (⟨"VACIO", 0, JVal.str "Sin páginas"⟩, false)
    else
      match doc.pageExc with
      | some e => (⟨"ARCHIVO_CORRUPTO", 0, JVal.str e⟩, false)
      | none =>
        let text_content := extract_text_smart doc.pages 4000
        if text_content.length < 50 then
          (⟨"REVISION_MANUAL", 0, JVal.str "PDF es imagen (sin capa de texto)"⟩, true)
        else
          (classify_document_text_only (llm text_content), true)

/-- `process_pdf` of the vision/hybrid variant (lines 193–222): no text
extracted-length check at all — after a successful open with at least one
page and a successful render, it always proceeds to inference on page 1's
text (plus the rendered image, which carries no information relevant to
these claims and is not modelled). -/
def process_pdf_hybrid (openRes : Except String PdfDoc)
    (llm : String → Except String String) : NRes × Bool :=
  match openRes with
  | Except.error e => (⟨"ARCHIVO_CORRUPTO", 0, JVal.str e⟩, false)
  | Except.ok doc =>
    if doc.pages.length = 0 then (⟨"VACIO", 0, JVal.str "PDF sin páginas"⟩, false)
    else
      match doc.pageExc with
      | some e => (⟨"ARCHIVO_CORRUPTO", 0, JVal.str e⟩, false)
      | none =>
        (classify_document_hybrid (llm (doc.pages.headD "")), true)

/-- A Boolean substring check: does `needle` occur contiguously in `hay`?
Used to formalize "the original raw content is referenced in the evidence
field". -/
def starts_with_chars : List Char → List Char → Bool
  | [], _ => true
  | _ :: _, [] => false
  | a :: as, b :: bs => a = b && starts_with_chars as bs

/-- Does `needle` occur contiguously anywhere in `hay`? -/
def mentions_chars (needle : List Char) : List Char → Bool
  | [] => starts_with_chars needle []
  | c :: rest => starts_with_chars needle (c :: rest) || mentions_chars needle rest

/-- String-level wrapper: does `needle` occur as a substring of `hay`? -/
def str_mentions (needle hay : String) : Bool :=
  mentions_chars needle.toList hay.toList

/-- Is there an opening brace with a closing brace at or after it?  This is
the condition under which the brace-isolation step can leave a nonempty
payload. -/
def has_brace_pair (l : List Char) : Bool :=
  (l.dropWhile (fun c => ¬ (c = lbrace))).contains rbrace

/-- The clamp `max(0.0, min(1.0, score))` always lands in `[0, 1]`. -/
theorem py_clamp01_bounds (p : PyNum) : 0 ≤ py_clamp01 p ∧ py_clamp01 p ≤ 1 := by
  unfold py_clamp01 py_min_one
  cases p
  case fin q =>
    by_cases h : q < 1 <;> by_cases h0 : 0 < q <;>
      simp only [h, h0, if_true, if_false, ite_true, ite_false] <;>
      constructor <;> first | linarith | norm_num
  all_goals norm_num

/-- The clamp is the identity on `[0, 1]`. -/
theorem py_clamp01_id (q : ℚ) (h0 : 0 ≤ q) (h1 : q ≤ 1) :
    py_clamp01 (PyNum.fin q) = q := by
  unfold py_clamp01 py_min_one
  by_cases h : q < 1 <;> by_cases hq : 0 < q <;>
    simp only [h, hq, if_true, if_false, ite_true, ite_false] <;>
    first | rfl | linarith | norm_num <;> linarith

/-- Rounding an integer (cast to `ℚ`) is the identity. -/
theorem round_half_even_intCast (k : ℤ) : round_half_even (k : ℚ) = k := by
  norm_num [round_half_even, Int.floor_intCast]

/-- `round_half_even` stays within integer bounds that contain its
argument. -/
theorem round_half_even_bounds (x : ℚ) (h0 : 0 ≤ x) (h1 : x ≤ 100) :
    0 ≤ round_half_even x ∧ round_half_even x ≤ 100 := by
  have hf0 : (0 : ℤ) ≤ ⌊x⌋ := Int.floor_nonneg.mpr h0
  have hfu : ⌊x⌋ ≤ 100 := by
    have := Int.floor_le_floor h1
    simpa using this
  have hle : (⌊x⌋ : ℚ) ≤ x := Int.floor_le x
  unfold round_half_even
  split_ifs with h2 h3 h4
  · exact ⟨hf0, hfu⟩
  · have : (⌊x⌋ : ℚ) ≤ 100 - 1/2 := by linarith
    have h99 : ⌊x⌋ ≤ 99 := by
      by_contra hcon
      push_neg at hcon
      have : ((100 : ℤ) : ℚ) ≤ (⌊x⌋ : ℚ) := by exact_mod_cast hcon
      norm_num at this
      linarith
    exact ⟨by omega, by omega⟩
  · exact ⟨hf0, hfu⟩
  · have heq : x - (⌊x⌋ : ℚ) = 1/2 := by linarith
    have : (⌊x⌋ : ℚ) = x - 1/2 := by linarith
    have h99 : ⌊x⌋ ≤ 99 := by
      by_contra hcon
      push_neg at hcon
      have : ((100 : ℤ) : ℚ) ≤ (⌊x⌋ : ℚ) := by exact_mod_cast hcon
      norm_num at this
      linarith
    exact ⟨by omega, by omega⟩

/-- `round(·, 2)` keeps values inside `[0, 1]`. -/
theorem py_round2_bounds (q : ℚ) (h0 : 0 ≤ q) (h1 : q ≤ 1) :
    0 ≤ py_round2 q ∧ py_round2 q ≤ 1 := by
  have hb := round_half_even_bounds (q * 100) (by linarith) (by linarith)
  unfold py_round2
  constructor
  · apply div_nonneg _ (by norm_num : (0 : ℚ) ≤ 100)
    exact_mod_cast hb.1
  · rw [div_le_one (by norm_num : (0 : ℚ) < 100)]
    exact_mod_cast hb.2

/-- `round(·, 2)` is idempotent. -/
theorem py_round2_idem (q : ℚ) : py_round2 (py_round2 q) = py_round2 q := by
  unfold py_round2
  have h : ((round_half_even (q * 100) : ℚ) / 100) * 100 = (round_half_even (q * 100) : ℚ) := by
    ring
  rw [h, round_half_even_intCast]

/-- Rounding zero gives zero. -/
theorem py_round2_zero : py_round2 0 = 0 := by
  have h : ((0 : ℚ) * 100) = ((0 : ℤ) : ℚ) := by norm_num
  unfold py_round2
  rw [h, round_half_even_intCast]
  norm_num

/-- Every output of the category-normalization step is either
`REVISION_MANUAL` or a valid category. -/
theorem norm_cat_mem (c : String) :
    norm_cat c ∈ "REVISION_MANUAL" :: CATEGORIAS_VALIDAS := by
  simp only [norm_cat]
  split_ifs with h1 h2 h3
  · exact List.mem_cons_of_mem _ h2
  · exact List.mem_cons_self _ _
  · exact List.mem_cons_of_mem _ h3
  · exact List.mem_cons_self _ _

/-- Category normalization is the identity on `REVISION_MANUAL` and on each
valid category (none of them contains lowercase letters or spaces, and none
ends in `S` with a valid-category stem). -/
theorem norm_cat_fixed (cat : String)
    (h : cat ∈ "REVISION_MANUAL" :: CATEGORIAS_VALIDAS) : norm_cat cat = cat := by
  simp only [CATEGORIAS_VALIDAS, List.mem_cons, List.not_mem_nil, or_false] at h
  rcases h with rfl | rfl | rfl | rfl | rfl | rfl <;> with_unfolding_all decide

/-- Every score accepted by the score-normalization step lies in `[0, 1]`. -/
theorem norm_score_ok_bounds (v : JVal) (q : ℚ) (h : norm_score v = Except.ok q) :
    0 ≤ q ∧ q ≤ 1 := by
  unfold norm_score at h
  split at h
  · cases h; exact py_clamp01_bounds _
  · cases h; exact py_clamp01_bounds _
  · split at h
    · cases h; exact py_clamp01_bounds _
    · cases h; exact py_clamp01_bounds _
  · cases h
  · cases h
  · cases h

/-- Inversion for a successful field-normalization: the category comes from
`norm_cat` and the score from `norm_score`, so the category is in the
closed-or-sentinel set and the score is in `[0, 1]`. -/
theorem fields_core_ok_inv (v : JVal) (cat : String) (q : ℚ) (ev : Option JVal)
    (h : fields_core v = Except.ok (cat, q, ev)) :
    cat ∈ "REVISION_MANUAL" :: CATEGORIAS_VALIDAS ∧ 0 ≤ q ∧ q ≤ 1 := by
  unfold fields_core at h
  split at h
  · split at h
    · rename_i kvs c heq
      split at h
      · rename_i q2 hs
        injection h with h2
        injection h2 with hcat h3
        injection h3 with hq hev
        subst hcat
        subst hq
        exact ⟨norm_cat_mem _, norm_score_ok_bounds _ _ hs⟩
      · cases h
    · cases h
  · cases h

/-- Inversion for a successful run of the whole normalization body. -/
theorem norm_core_ok_inv (content : String) (cat : String) (q : ℚ) (ev : Option JVal)
    (h : norm_core content = Except.ok (cat, q, ev)) :
    cat ∈ "REVISION_MANUAL" :: CATEGORIAS_VALIDAS ∧ 0 ≤ q ∧ q ≤ 1 := by
  simp only [norm_core] at h
  split at h
  · cases h
  · split at h
    · exact fields_core_ok_inv _ _ _ _ h
    · cases h

/-- Shape of every text-variant normalizer output: either the `ERROR`
sentinel of an exception handler, or a category in the closed-or-sentinel
set with a score in `[0, 1]`. -/
theorem normalize_text_shape (content : String) :
    (normalize_text content).categoria = "ERROR" ∨
      ((normalize_text content).categoria ∈ "REVISION_MANUAL" :: CATEGORIAS_VALIDAS ∧
        0 ≤ (normalize_text content).score ∧ (normalize_text content).score ≤ 1) := by
  unfold normalize_text
  cases h : norm_core content with
  | ok r =>
    right
    obtain ⟨hc, h0, h1⟩ := norm_core_ok_inv content r.1 r.2.1 r.2.2 (by rw [h])
    simp only [finish_text]
    exact ⟨hc, h0, h1⟩
  | error f =>
    cases f with
    | emptyPayload =>
      right
      simp only [finish_text]
      refine ⟨List.mem_cons_self _ _, by norm_num⟩
    | jsonDecode m => left; rfl
    | pyExc m => left; rfl

/-- Shape of every hybrid-variant normalizer output; additionally, the
score is a fixed point of the two-decimal rounding. -/
theorem normalize_hybrid_shape (content : String) :
    (normalize_hybrid content).categoria = "ERROR" ∨
      ((normalize_hybrid content).categoria ∈ "REVISION_MANUAL" :: CATEGORIAS_VALIDAS ∧
        0 ≤ (normalize_hybrid content).score ∧ (normalize_hybrid content).score ≤ 1 ∧
        py_round2 (normalize_hybrid content).score = (normalize_hybrid content).score) := by
  unfold normalize_hybrid
  cases h : norm_core content with
  | ok r =>
    right
    obtain ⟨hc, h0, h1⟩ := norm_core_ok_inv content r.1 r.2.1 r.2.2 (by rw [h])
    simp only [finish_hybrid]
    obtain ⟨hr0, hr1⟩ := py_round2_bounds r.2.1 h0 h1
    exact ⟨hc, hr0, hr1, py_round2_idem _⟩
  | error f =>
    cases f with
    | emptyPayload =>
      right
      simp only [finish_hybrid]
      refine ⟨List.mem_cons_self _ _, by norm_num, by norm_num, py_round2_zero⟩
    | jsonDecode m =>
      right
      simp only [finish_hybrid]
      refine ⟨List.mem_cons_self _ _, by norm_num, by norm_num, py_round2_zero⟩
    | pyExc m => left; rfl

/-- Field normalization of a re-serialized result: the category goes back
through `norm_cat`, the score through the clamp, and the evidence is read
back verbatim. -/
theorem fields_core_reser (r : NRes) :
    fields_core (reser r) =
      Except.ok (norm_cat r.categoria, py_clamp01 (PyNum.fin r.score), some r.evidencia) := by
  with_unfolding_all rfl

/-- Re-normalizing a re-serialized result is the identity whenever the
category is in the closed-or-sentinel set and the score is in `[0, 1]`
(text variant). -/
theorem roundtrip_parsed_text (r : NRes)
    (hc : r.categoria ∈ "REVISION_MANUAL" :: CATEGORIAS_VALIDAS)
    (h0 : 0 ≤ r.score) (h1 : r.score ≤ 1) :
    normalize_parsed_text (reser r) = r := by
  unfold normalize_parsed_text
  rw [fields_core_reser, norm_cat_fixed _ hc, py_clamp01_id _ h0 h1]
  rfl

/-- Hybrid analogue of `roundtrip_parsed_text`; additionally needs the score
to be a fixed point of the two-decimal rounding, which every hybrid output
is. -/
theorem roundtrip_parsed_hybrid (r : NRes)
    (hc : r.categoria ∈ "REVISION_MANUAL" :: CATEGORIAS_VALIDAS)
    (h0 : 0 ≤ r.score) (h1 : r.score ≤ 1)
    (hround : py_round2 r.score = r.score) :
    normalize_parsed_hybrid (reser r) = r := by
  unfold normalize_parsed_hybrid
  rw [fields_core_reser, norm_cat_fixed _ hc, py_clamp01_id _ h0 h1]
  simp only [finish_hybrid, Option.getD]
  rw [hround]

/-- If the cleaned payload parses to an object whose `categoria` lookup
produces the string `c` and whose score normalizes successfully, the
normalization body returns the normalized fields. -/
theorem norm_core_of_parse (raw : String) (kvs : List (String × JVal)) (c : String) (q : ℚ)
    (hp : jparse (json_cleaned raw) = some (JVal.obj kvs))
    (hc : py_dict_get kvs "categoria" (JVal.str "") = JVal.str c)
    (hs : norm_score (py_dict_get kvs "score" (JVal.num (1/2))) = Except.ok q) :
    norm_core raw = Except.ok (norm_cat c, q, dict_lookup kvs "evidencia") := by
  have hnone : jparse "" = none := rfl
  have hne : ¬ (json_cleaned raw = "") := by
    intro he
    rw [he, hnone] at hp
    exact Option.noConfusion hp
  simp only [norm_core, if_neg hne, hp]
  simp only [fields_core, hc, hs]

/-- Both normalizers, expressed through the normalized fields, under the
same parse hypotheses. -/
theorem normalize_of_parse (raw : String) (kvs : List (String × JVal)) (c : String) (q : ℚ)
    (hp : jparse (json_cleaned raw) = some (JVal.obj kvs))
    (hc : py_dict_get kvs "categoria" (JVal.str "") = JVal.str c)
    (hs : norm_score (py_dict_get kvs "score" (JVal.num (1/2))) = Except.ok q) :
    normalize_text raw =
      ⟨norm_cat c, q, (dict_lookup kvs "evidencia").getD (JVal.str "Sin evidencia")⟩ ∧
    normalize_hybrid raw =
      ⟨norm_cat c, py_round2 q, (dict_lookup kvs "evidencia").getD (JVal.str "Sin evidencia detallada")⟩ := by
  have h := norm_core_of_parse raw kvs c q hp hc hs
  constructor
  · unfold normalize_text
    rw [h]
    rfl
  · unfold normalize_hybrid
    rw [h]
    rfl

/-- The text normalizer's score is always in `[0, 1]`. -/
theorem normalize_text_score_bounds (content : String) :
    0 ≤ (normalize_text content).score ∧ (normalize_text content).score ≤ 1 := by
  unfold normalize_text
  cases h : norm_core content with
  | ok r =>
    obtain ⟨_, h0, h1⟩ := norm_core_ok_inv content r.1 r.2.1 r.2.2 (by rw [h])
    exact ⟨h0, h1⟩
  | error f => cases f <;> simp [finish_text]

/-- The hybrid normalizer's score is always in `[0, 1]`. -/
theorem normalize_hybrid_score_bounds (content : String) :
    0 ≤ (normalize_hybrid content).score ∧ (normalize_hybrid content).score ≤ 1 := by
  unfold normalize_hybrid
  cases h : norm_core content with
  | ok r =>
    obtain ⟨_, h0, h1⟩ := norm_core_ok_inv content r.1 r.2.1 r.2.2 (by rw [h])
    exact py_round2_bounds _ h0 h1
  | error f => cases f <;> simp [finish_hybrid]

/-- The text classification entry point's score is always in `[0, 1]`. -/
theorem classify_text_score_bounds (resp : Except String String) :
    0 ≤ (classify_document_text_only resp).score ∧
      (classify_document_text_only resp).score ≤ 1 := by
  cases resp with
  | ok content => exact normalize_text_score_bounds content
  | error e => simp [classify_document_text_only]

/-- The hybrid classification entry point's score is always in `[0, 1]`. -/
theorem classify_hybrid_score_bounds (resp : Except String String) :
    0 ≤ (classify_document_hybrid resp).score ∧
      (classify_document_hybrid resp).score ≤ 1 := by
  cases resp with
  | ok content => exact normalize_hybrid_score_bounds content
  | error e => simp [classify_document_hybrid]

/-- The text orchestrator's reported score is always in `[0, 1]`. -/
theorem process_text_score_bounds (openRes : Except String PdfDoc)
    (llm : String → Except String String) :
    0 ≤ (process_pdf_text openRes llm).1.score ∧
      (process_pdf_text openRes llm).1.score ≤ 1 := by
  unfold process_pdf_text
  cases openRes with
  | error e => norm_num
  | ok doc =>
    by_cases hz : doc.pages.length = 0
    · simp only [if_pos hz]
      norm_num
    · simp only [if_neg hz]
      cases doc.pageExc with
      | some e => norm_num
      | none =>
        by_cases hlen : (extract_text_smart doc.pages 4000).length < 50
        · simp only [if_pos hlen]
          norm_num
        · simp only [if_neg hlen]
          exact classify_text_score_bounds _

/-- The hybrid orchestrator's reported score is always in `[0, 1]`. -/
theorem process_hybrid_score_bounds (openRes : Except String PdfDoc)
    (llm : String → Except String String) :
    0 ≤ (process_pdf_hybrid openRes llm).1.score ∧
      (process_pdf_hybrid openRes llm).1.score ≤ 1 := by
  unfold process_pdf_hybrid
  cases openRes with
  | error e => norm_num
  | ok doc =>
    by_cases hz : doc.pages.length = 0
    · simp only [if_pos hz]
      norm_num
    · simp only [if_neg hz]
      cases doc.pageExc with
      | some e => norm_num
      | none => exact classify_hybrid_score_bounds _

/-- C3: every classification result produced by the pipeline — any raw LLM
response through normalization (either variant, including out-of-range
numeric scores) and every sentinel path of the orchestrators — carries a
score in the closed interval `[0, 1]`. -/
theorem c3_score_always_in_unit_interval (openRes : Except String PdfDoc)
    (llm : String → Except String String) (resp : Except String String)
    (raw : String) :
    (0 ≤ (process_pdf_text openRes llm).1.score ∧
      (process_pdf_text openRes llm).1.score ≤ 1) ∧
    (0 ≤ (process_pdf_hybrid openRes llm).1.score ∧
      (process_pdf_hybrid openRes llm).1.score ≤ 1) ∧
    (0 ≤ (classify_document_text_only resp).score ∧
      (classify_document_text_only resp).score ≤ 1) ∧
    (0 ≤ (classify_document_hybrid resp).score ∧
      (classify_document_hybrid resp).score ≤ 1) ∧
    (0 ≤ (normalize_text raw).score ∧ (normalize_text raw).score ≤ 1) ∧
    (0 ≤ (normalize_hybrid raw).score ∧ (normalize_hybrid raw).score ≤ 1) :=
  ⟨process_text_score_bounds openRes llm, process_hybrid_score_bounds openRes llm,
    classify_text_score_bounds resp, classify_hybrid_score_bounds resp,
    normalize_text_score_bounds raw, normalize_hybrid_score_bounds raw⟩

/-- C1, counterexample to the claim as stated: on the no-JSON input
`"Lo siento, no puedo procesar esto."` both normalizers do return a sentinel
with score 0, but the evidence is a fixed diagnostic message that does not
reference (contain) the original raw content, contradicting "the original
raw content referenced in the evidence field". -/
theorem c1_counterexample :
    normalize_text "Lo siento, no puedo procesar esto." =
      ⟨"REVISION_MANUAL", 0, JVal.str "JSON ilegible"⟩ ∧
    normalize_hybrid "Lo siento, no puedo procesar esto." =
      ⟨"REVISION_MANUAL", 0, JVal.str "El modelo no retornó un JSON válido."⟩ ∧
    str_mentions "Lo siento, no puedo procesar esto." "JSON ilegible" = false ∧
    str_mentions "Lo siento, no puedo procesar esto."
      "El modelo no retornó un JSON válido." = false := by
  refine ⟨by with_unfolding_all rfl, by with_unfolding_all rfl,
    by with_unfolding_all rfl, by with_unfolding_all rfl⟩

/-- C1, amended: the normalizers are total functions (never raise), and on
every failure of the normalization body (empty payload, JSON syntax error,
or a Python exception in field handling) the result is a sentinel category
(`REVISION_MANUAL` or `ERROR`) with score 0 and a diagnostic message —
not the original raw content — in the evidence field. -/
theorem c1_failure_paths_sentinel (content : String) (f : NormFailure)
    (h : norm_core content = Except.error f) :
    ((normalize_text content).categoria = "REVISION_MANUAL" ∨
      (normalize_text content).categoria = "ERROR") ∧
    (normalize_text content).score = 0 ∧
    ((normalize_hybrid content).categoria = "REVISION_MANUAL" ∨
      (normalize_hybrid content).categoria = "ERROR") ∧
    (normalize_hybrid content).score = 0 := by
  unfold normalize_text normalize_hybrid
  rw [h]
  cases f <;> simp [finish_text, finish_hybrid]

/-- C1, witness: the amended theorem applied to a concrete failing input. -/
theorem c1_failure_paths_sentinel_witness :
    ((normalize_text "hola").categoria = "REVISION_MANUAL" ∨
      (normalize_text "hola").categoria = "ERROR") ∧
    (normalize_text "hola").score = 0 ∧
    ((normalize_hybrid "hola").categoria = "REVISION_MANUAL" ∨
      (normalize_hybrid "hola").categoria = "ERROR") ∧
    (normalize_hybrid "hola").score = 0 :=
  c1_failure_paths_sentinel "hola" NormFailure.emptyPayload (by with_unfolding_all rfl)

/-- C4, counterexample to round-trip idempotence as stated: the text-only
variant turns the unparseable payload `\x7bx\x7d` into an `ERROR` result,
and re-normalizing that result's own re-serialization demotes the category
to `REVISION_MANUAL`, so the second result differs from the first. -/
theorem c4_counterexample :
    (normalize_text "\x7bx\x7d").categoria = "ERROR" ∧
    ¬ (normalize_parsed_text (reser (normalize_text "\x7bx\x7d")) =
        normalize_text "\x7bx\x7d") := by
  constructor
  · with_unfolding_all rfl
  · intro h
    have hc := congrArg NRes.categoria h
    rw [show (normalize_parsed_text (reser (normalize_text "\x7bx\x7d"))).categoria =
        "REVISION_MANUAL" from by with_unfolding_all rfl,
      show (normalize_text "\x7bx\x7d").categoria = "ERROR" from by
        with_unfolding_all rfl] at hc
    exact absurd hc (by decide)

/-- C4, amended: round-trip stability holds for every raw input whose
first-pass category is not the `ERROR` sentinel (an `ERROR` category is
outside the valid set, so a second pass rewrites it to `REVISION_MANUAL`;
every other first-pass output re-normalizes to itself, in both variants). -/
theorem c4_roundtrip_of_not_error (raw : String) :
    ((normalize_text raw).categoria ≠ "ERROR" →
      normalize_parsed_text (reser (normalize_text raw)) = normalize_text raw) ∧
    ((normalize_hybrid raw).categoria ≠ "ERROR" →
      normalize_parsed_hybrid (reser (normalize_hybrid raw)) = normalize_hybrid raw) := by
  constructor
  · intro hne
    rcases normalize_text_shape raw with h | ⟨hc, h0, h1⟩
    · exact absurd h hne
    · exact roundtrip_parsed_text _ hc h0 h1
  · intro hne
    rcases normalize_hybrid_shape raw with h | ⟨hc, h0, h1, hr⟩
    · exact absurd h hne
    · exact roundtrip_parsed_hybrid _ hc h0 h1 hr

/-- C4, witness: the amended theorem applied to a concrete well-formed
response, for both variants. -/
theorem c4_roundtrip_of_not_error_witness :
    normalize_parsed_text
        (reser (normalize_text "\x7b\"categoria\": \"CONTRATO\", \"score\": 0.9\x7d")) =
      normalize_text "\x7b\"categoria\": \"CONTRATO\", \"score\": 0.9\x7d" ∧
    normalize_parsed_hybrid
        (reser (normalize_hybrid "\x7b\"categoria\": \"CONTRATO\", \"score\": 0.9\x7d")) =
      normalize_hybrid "\x7b\"categoria\": \"CONTRATO\", \"score\": 0.9\x7d" :=
  ⟨(c4_roundtrip_of_not_error _).1 (by with_unfolding_all decide),
    (c4_roundtrip_of_not_error _).2 (by with_unfolding_all decide)⟩

/-- C2, counterexample to the claim as stated: on a valid JSON response
with the valid category `CONTRATO` and the in-range score `0.123`, the
text-only variant returns the score unchanged, but the vision/hybrid
variant rounds it to two decimals (`0.12 = 3/25`), so it does not return
"exactly that score". -/
theorem c2_counterexample :
    jparse (json_cleaned
        "\x7b\"categoria\": \"CONTRATO\", \"score\": 0.123, \"evidencia\": \"x\"\x7d") =
      some (JVal.obj [ ("categoria", JVal.str "CONTRATO"),
        ("score", JVal.num (123/1000)), ("evidencia", JVal.str "x") ]) ∧
    "CONTRATO" ∈ CATEGORIAS_VALIDAS ∧
    (0 : ℚ) ≤ 123/1000 ∧ (123 : ℚ)/1000 ≤ 1 ∧
    (normalize_text
        "\x7b\"categoria\": \"CONTRATO\", \"score\": 0.123, \"evidencia\": \"x\"\x7d").score =
      123/1000 ∧
    (normalize_hybrid
        "\x7b\"categoria\": \"CONTRATO\", \"score\": 0.123, \"evidencia\": \"x\"\x7d").score =
      3/25 ∧
    ¬ ((normalize_hybrid
        "\x7b\"categoria\": \"CONTRATO\", \"score\": 0.123, \"evidencia\": \"x\"\x7d").score =
      123/1000) := by
  refine ⟨by with_unfolding_all rfl, by with_unfolding_all decide,
    by with_unfolding_all decide, by with_unfolding_all decide,
    by with_unfolding_all decide, by with_unfolding_all decide,
    by with_unfolding_all decide⟩

/-- C2, amended: for every raw response whose cleaned payload parses to an
object whose `categoria` field is already a valid category and whose
`score` field is a number in `[0, 1]`, the text-only variant returns
exactly that category and exactly that score; the vision/hybrid variant
returns exactly that category and the score rounded to two decimals —
equal to the original exactly when `100 · score` is an integer. -/
theorem c2_valid_json_preserved (raw : String) (kvs : List (String × JVal))
    (c : String) (q : ℚ)
    (hp : jparse (json_cleaned raw) = some (JVal.obj kvs))
    (hc : dict_lookup kvs "categoria" = some (JVal.str c))
    (hcv : c ∈ CATEGORIAS_VALIDAS)
    (hs : dict_lookup kvs "score" = some (JVal.num q))
    (h0 : 0 ≤ q) (h1 : q ≤ 1) :
    (normalize_text raw).categoria = c ∧ (normalize_text raw).score = q ∧
    (normalize_hybrid raw).categoria = c ∧
    (normalize_hybrid raw).score = py_round2 q ∧
    (∀ k : ℤ, q * 100 = (k : ℚ) → (normalize_hybrid raw).score = q) := by
  have hcget : py_dict_get kvs "categoria" (JVal.str "") = JVal.str c := by
    simp [py_dict_get, hc]
  have hsget : norm_score (py_dict_get kvs "score" (JVal.num (1/2))) = Except.ok q := by
    simp only [py_dict_get, hs, Option.getD, norm_score]
    rw [py_clamp01_id q h0 h1]
  obtain ⟨ht, hh⟩ := normalize_of_parse raw kvs c q hp hcget hsget
  have hcatc : norm_cat c = c := norm_cat_fixed c (List.mem_cons_of_mem _ hcv)
  refine ⟨by rw [ht]; exact hcatc, by rw [ht], by rw [hh]; exact hcatc, by rw [hh], ?_⟩
  intro k hk
  rw [hh]
  show py_round2 q = q
  unfold py_round2
  rw [hk, round_half_even_intCast]
  have hq : q = (k : ℚ) / 100 := by
    field_simp
    linarith [hk]
  rw [← hq]

/-- C2, witness: the amended theorem applied to a concrete valid response
with score `0.95`. -/
theorem c2_valid_json_preserved_witness :
    (normalize_text
        "\x7b\"categoria\": \"CONTRATO\", \"score\": 0.95, \"evidencia\": \"x\"\x7d").categoria =
      "CONTRATO" ∧
    (normalize_text
        "\x7b\"categoria\": \"CONTRATO\", \"score\": 0.95, \"evidencia\": \"x\"\x7d").score =
      19/20 ∧
    (normalize_hybrid
        "\x7b\"categoria\": \"CONTRATO\", \"score\": 0.95, \"evidencia\": \"x\"\x7d").categoria =
      "CONTRATO" ∧
    (normalize_hybrid
        "\x7b\"categoria\": \"CONTRATO\", \"score\": 0.95, \"evidencia\": \"x\"\x7d").score =
      py_round2 (19/20) ∧
    (∀ k : ℤ, (19 : ℚ)/20 * 100 = (k : ℚ) →
      (normalize_hybrid
        "\x7b\"categoria\": \"CONTRATO\", \"score\": 0.95, \"evidencia\": \"x\"\x7d").score =
      19/20) :=
  c2_valid_json_preserved _
    [ ("categoria", JVal.str "CONTRATO"), ("score", JVal.num (19/20)),
      ("evidencia", JVal.str "x") ]
    "CONTRATO" (19/20)
    (by with_unfolding_all rfl) (by with_unfolding_all rfl)
    (by with_unfolding_all decide) (by with_unfolding_all rfl)
    (by with_unfolding_all decide) (by with_unfolding_all decide)

/-- C7, counterexample to the claim as stated: a response whose category
field normalizes to a valid category plus a trailing `S` (`"CONTRATOS"`)
but whose score field is `null` does not yield the singular category — the
`min` comparison on the score raises a `TypeError`, so both variants answer
`ERROR`. -/
theorem c7_counterexample :
    jparse (json_cleaned "\x7b\"categoria\": \"CONTRATOS\", \"score\": null\x7d") =
      some (JVal.obj [ ("categoria", JVal.str "CONTRATOS"), ("score", JVal.null) ]) ∧
    py_underscore (py_upper "CONTRATOS") = "CONTRATO" ++ "S" ∧
    "CONTRATO" ∈ CATEGORIAS_VALIDAS ∧
    (normalize_text "\x7b\"categoria\": \"CONTRATOS\", \"score\": null\x7d").categoria =
      "ERROR" ∧
    (normalize_hybrid "\x7b\"categoria\": \"CONTRATOS\", \"score\": null\x7d").categoria =
      "ERROR" := by
  refine ⟨by with_unfolding_all rfl, by with_unfolding_all rfl,
    by with_unfolding_all decide, by with_unfolding_all rfl, by with_unfolding_all rfl⟩

/-- C7, amended: for every raw response whose cleaned payload parses to an
object whose category field, after uppercasing and replacing spaces with
underscores, equals a valid category with a trailing `S` appended, and
whose score field normalizes without a `TypeError`, both variants return
the singular valid category. -/
theorem c7_plural_category_singularized (raw : String) (kvs : List (String × JVal))
    (c : String) (v : String) (q : ℚ)
    (hp : jparse (json_cleaned raw) = some (JVal.obj kvs))
    (hc : dict_lookup kvs "categoria" = some (JVal.str c))
    (hu : py_underscore (py_upper c) = v ++ "S")
    (hv : v ∈ CATEGORIAS_VALIDAS)
    (hs : norm_score (py_dict_get kvs "score" (JVal.num (1/2))) = Except.ok q) :
    (normalize_text raw).categoria = v ∧ (normalize_hybrid raw).categoria = v := by
  have hcget : py_dict_get kvs "categoria" (JVal.str "") = JVal.str c := by
    simp [py_dict_get, hc]
  obtain ⟨ht, hh⟩ := normalize_of_parse raw kvs c q hp hcget hs
  have hcat : norm_cat c = v := by
    simp only [CATEGORIAS_VALIDAS, List.mem_cons, List.not_mem_nil, or_false] at hv
    rcases hv with rfl | rfl | rfl | rfl | rfl <;>
      · simp only [norm_cat, hu]
        with_unfolding_all decide
  exact ⟨by rw [ht]; exact hcat, by rw [hh]; exact hcat⟩

/-- C7, witness: a lowercase pluralized category with a well-typed score. -/
theorem c7_plural_category_singularized_witness :
    (normalize_text "\x7b\"categoria\": \"contratos\", \"score\": 0.8\x7d").categoria =
      "CONTRATO" ∧
    (normalize_hybrid "\x7b\"categoria\": \"contratos\", \"score\": 0.8\x7d").categoria =
      "CONTRATO" :=
  c7_plural_category_singularized _
    [ ("categoria", JVal.str "contratos"), ("score", JVal.num (4/5)) ]
    "contratos" "CONTRATO" (4/5)
    (by with_unfolding_all rfl) (by with_unfolding_all rfl)
    (by with_unfolding_all rfl) (by with_unfolding_all decide)
    (by with_unfolding_all rfl)

/-- C10, counterexample to the claim as stated: a parsed response with no
category field but a `null` score does not produce `REVISION_MANUAL` — the
score clamp raises a `TypeError` first, and both variants answer `ERROR`. -/
theorem c10_counterexample :
    jparse (json_cleaned "\x7b\"score\": null\x7d") =
      some (JVal.obj [ ("score", JVal.null) ]) ∧
    dict_lookup [ ("score", JVal.null) ] "categoria" = none ∧
    (normalize_text "\x7b\"score\": null\x7d").categoria = "ERROR" ∧
    (normalize_hybrid "\x7b\"score\": null\x7d").categoria = "ERROR" := by
  refine ⟨by with_unfolding_all rfl, by with_unfolding_all rfl,
    by with_unfolding_all rfl, by with_unfolding_all rfl⟩

/-- C10, amended: for every parsed JSON response in which the category
field is absent and the score field is absent or numeric, both variants
return sentinel category `REVISION_MANUAL`; the score is taken from the
score field when present (clamped, and rounded to two decimals in the
hybrid variant — so the sentinel may carry a nonzero score), and defaults
to `0.5` exactly when the score field is absent.  (A score of unorderable
type, such as `null`, instead raises a `TypeError` and yields `ERROR`.) -/
theorem c10_missing_category_sentinel (raw : String) (kvs : List (String × JVal)) (q : ℚ)
    (hp : jparse (json_cleaned raw) = some (JVal.obj kvs))
    (hcat : dict_lookup kvs "categoria" = none)
    (hsc : dict_lookup kvs "score" = none ∨ dict_lookup kvs "score" = some (JVal.num q))
    (h0 : 0 ≤ q) (h1 : q ≤ 1) :
    (normalize_text raw).categoria = "REVISION_MANUAL" ∧
    (normalize_hybrid raw).categoria = "REVISION_MANUAL" ∧
    (dict_lookup kvs "score" = none →
      (normalize_text raw).score = 1/2 ∧ (normalize_hybrid raw).score = 1/2) ∧
    (dict_lookup kvs "score" = some (JVal.num q) →
      (normalize_text raw).score = q ∧ (normalize_hybrid raw).score = py_round2 q) := by
  have hcget : py_dict_get kvs "categoria" (JVal.str "") = JVal.str "" := by
    simp [py_dict_get, hcat]
  have hcatRM : norm_cat "" = "REVISION_MANUAL" := by with_unfolding_all decide
  rcases hsc with hn | hs2
  · have hsget : norm_score (py_dict_get kvs "score" (JVal.num (1/2))) =
        Except.ok (1/2) := by
      simp only [py_dict_get, hn, Option.getD, norm_score]
      rw [py_clamp01_id _ (by norm_num) (by norm_num)]
    obtain ⟨ht, hh⟩ := normalize_of_parse raw kvs "" (1/2) hp hcget hsget
    refine ⟨by rw [ht]; exact hcatRM, by rw [hh]; exact hcatRM, ?_, ?_⟩
    · intro _
      refine ⟨by rw [ht], ?_⟩
      rw [hh]
      show py_round2 (1/2) = 1/2
      with_unfolding_all decide
    · intro hcontra
      rw [hn] at hcontra
      exact Option.noConfusion hcontra
  · have hsget : norm_score (py_dict_get kvs "score" (JVal.num (1/2))) =
        Except.ok q := by
      simp only [py_dict_get, hs2, Option.getD, norm_score]
      rw [py_clamp01_id q h0 h1]
    obtain ⟨ht, hh⟩ := normalize_of_parse raw kvs "" q hp hcget hsget
    refine ⟨by rw [ht]; exact hcatRM, by rw [hh]; exact hcatRM, ?_, ?_⟩
    · intro hcontra
      rw [hs2] at hcontra
      exact Option.noConfusion hcontra
    · intro _
      exact ⟨by rw [ht], by rw [hh]⟩

/-- C10, witness: a response with no category field and score `0.9` yields
the `REVISION_MANUAL` sentinel carrying the nonzero score `0.9`. -/
theorem c10_missing_category_sentinel_witness :
    (normalize_text "\x7b\"score\": 0.9\x7d").categoria = "REVISION_MANUAL" ∧
    (normalize_text "\x7b\"score\": 0.9\x7d").score = 9/10 ∧
    (normalize_hybrid "\x7b\"score\": 0.9\x7d").score = py_round2 (9/10) := by
  have h := c10_missing_category_sentinel "\x7b\"score\": 0.9\x7d"
    [ ("score", JVal.num (9/10)) ] (9/10)
    (by with_unfolding_all rfl) (by with_unfolding_all rfl)
    (Or.inr (by with_unfolding_all rfl))
    (by with_unfolding_all decide) (by with_unfolding_all decide)
  obtain ⟨h1, _, _, h4⟩ := h
  obtain ⟨h5, h6⟩ := h4 (by with_unfolding_all rfl)
  exact ⟨h1, h5, h6⟩

/-- C5: in the text-only variant, a successfully opened document with at
least one page whose extracted text is shorter than 50 characters (for
example, exactly 49) yields the `REVISION_MANUAL` sentinel — a constant
independent of the inference client, so no inference call is made — while
a document whose extracted text has 50 or more characters proceeds to the
inference step on exactly that text. -/
theorem c5_min_text_threshold (doc : PdfDoc) (llm : String → Except String String)
    (hpages : ¬ doc.pages.length = 0) (hexc : doc.pageExc = none) :
    ((extract_text_smart doc.pages 4000).length < 50 →
      process_pdf_text (Except.ok doc) llm =
        (⟨"REVISION_MANUAL", 0, JVal.str "PDF es imagen (sin capa de texto)"⟩, true)) ∧
    (50 ≤ (extract_text_smart doc.pages 4000).length →
      process_pdf_text (Except.ok doc) llm =
        (classify_document_text_only (llm (extract_text_smart doc.pages 4000)), true)) := by
  constructor
  · intro hlen
    simp only [process_pdf_text, if_neg hpages, hexc, if_pos hlen]
  · intro hlen
    have hnot : ¬ (extract_text_smart doc.pages 4000).length < 50 := by omega
    simp only [process_pdf_text, if_neg hpages, hexc, if_neg hnot]

/-- C5, witness: a one-page document with 5 characters of text
short-circuits; the hypotheses are discharged concretely. -/
theorem c5_min_text_threshold_witness :
    process_pdf_text (Except.ok ⟨[ "corto" ], none⟩) (fun _ => Except.ok "") =
      (⟨"REVISION_MANUAL", 0, JVal.str "PDF es imagen (sin capa de texto)"⟩, true) :=
  (c5_min_text_threshold ⟨[ "corto" ], none⟩ (fun _ => Except.ok "")
    (by with_unfolding_all decide) rfl).1 (by with_unfolding_all decide)

/-- C8, counterexample to the claim as stated: a successfully opened
zero-page document returns the `VACIO` sentinel without `doc.close()`
having run, in both variants — the handle is not closed on that exit
path. -/
theorem c8_counterexample :
    (process_pdf_text (Except.ok ⟨[], none⟩) (fun _ => Except.ok "")).2 = false ∧
    (process_pdf_text (Except.ok ⟨[], none⟩) (fun _ => Except.ok "")).1.categoria =
      "VACIO" ∧
    (process_pdf_hybrid (Except.ok ⟨[], none⟩) (fun _ => Except.ok "")).2 = false ∧
    (process_pdf_hybrid (Except.ok ⟨[], none⟩) (fun _ => Except.ok "")).1.categoria =
      "VACIO" := by
  refine ⟨rfl, rfl, rfl, rfl⟩

/-- C8, amended: the document handle is closed before returning on every
exit path that passes the page-count check and completes page-level
extraction without an exception (that is: normal completion, and the text
variant's below-threshold short-circuit); it is not closed on the zero-page
short-circuit, nor when a page-level exception escapes to the
`ARCHIVO_CORRUPTO` handler. -/
theorem c8_close_on_completed_paths (doc : PdfDoc) (llm : String → Except String String)
    (hpages : ¬ doc.pages.length = 0) (hexc : doc.pageExc = none) :
    (process_pdf_text (Except.ok doc) llm).2 = true ∧
    (process_pdf_hybrid (Except.ok doc) llm).2 = true := by
  constructor
  · simp only [process_pdf_text, if_neg hpages, hexc]
    by_cases hlen : (extract_text_smart doc.pages 4000).length < 50 <;>
      simp [hlen]
  · simp only [process_pdf_hybrid, if_neg hpages, hexc]

/-- C8, witness: the amended theorem applied to a concrete one-page
document. -/
theorem c8_close_on_completed_paths_witness :
    (process_pdf_text (Except.ok ⟨[ "p" ], none⟩) (fun _ => Except.error "down")).2 = true ∧
    (process_pdf_hybrid (Except.ok ⟨[ "p" ], none⟩) (fun _ => Except.error "down")).2 =
      true :=
  c8_close_on_completed_paths ⟨[ "p" ], none⟩ (fun _ => Except.error "down")
    (by with_unfolding_all decide) rfl

/-- C9: the vision/hybrid orchestrator applies no minimum-text-length
short-circuit: for every successfully opened document with at least one
page (and no page-level exception), it always invokes inference on page 1's
text — even when that text is empty or shorter than 50 characters — and
closes the handle afterwards. -/
theorem c9_hybrid_no_text_threshold (doc : PdfDoc) (llm : String → Except String String)
    (hpages : ¬ doc.pages.length = 0) (hexc : doc.pageExc = none) :
    process_pdf_hybrid (Except.ok doc) llm =
      (classify_document_hybrid (llm (doc.pages.headD "")), true) := by
  simp only [process_pdf_hybrid, if_neg hpages, hexc]

/-- C9, witness: a document whose only page has empty text (length 0, far
below 50) still goes to inference. -/
theorem c9_hybrid_no_text_threshold_witness :
    process_pdf_hybrid (Except.ok ⟨[ "" ], none⟩) (fun _ => Except.error "down") =
      (classify_document_hybrid ((fun _ => Except.error "down") ""), true) ∧
    ("" : String).length < 50 :=
  ⟨c9_hybrid_no_text_threshold ⟨[ "" ], none⟩ (fun _ => Except.error "down")
    (by with_unfolding_all decide) rfl, by decide⟩

/-- `List.contains` agrees with membership for characters. -/
theorem contains_iff_mem_char (t : List Char) (a : Char) : t.contains a = true ↔ a ∈ t :=
  List.elem_iff

/-- Removing code fences only deletes characters: the result is a sublist
of the input. -/
theorem remove_fences_sublist (l : List Char) : List.Sublist (remove_fences l) l := by
  induction l using remove_fences.induct with
  | case1 => simp [remove_fences]
  | case2 c => simp [remove_fences]
  | case3 c c2 => simp [remove_fences]
  | case4 c c2 c3 rest3 h ih =>
    rw [remove_fences, if_pos h]
    exact ih.trans (List.sublist_append_right [ c, c2, c3, 'j', 's', 'o', 'n' ] rest3)
  | case5 c c2 c3 rest3 h ih =>
    rw [remove_fences, if_neg h]
    exact ih.cons₂ c
  | case6 c c2 c3 rest2 hne h ih =>
    rw [remove_fences]
    · rw [if_pos h]
      exact ih.trans (List.sublist_append_right [ c, c2, c3 ] rest2)
    · exact hne
  | case7 c c2 c3 rest2 hne h ih =>
    rw [remove_fences]
    · rw [if_neg h]
      exact ih.cons₂ c
    · exact hne

/-- Whitespace stripping yields a sublist. -/
theorem strip_ws_sublist (l : List Char) : List.Sublist (strip_ws l) l := by
  unfold strip_ws
  have h1 : List.Sublist (l.dropWhile is_py_ws) l := List.dropWhile_sublist _
  have h2 : List.Sublist ((l.dropWhile is_py_ws).reverse.dropWhile is_py_ws)
      (l.dropWhile is_py_ws).reverse := List.dropWhile_sublist _
  have h3 := h2.reverse
  rw [List.reverse_reverse] at h3
  exact h3.trans h1

/-- Cutting after the last closing brace yields a sublist. -/
theorem drop_after_rbrace_sublist (l : List Char) :
    List.Sublist (drop_after_rbrace l) l := by
  unfold drop_after_rbrace
  have h : List.Sublist (l.reverse.dropWhile (fun c => ¬ (c = rbrace))) l.reverse :=
    List.dropWhile_sublist _
  have h2 := h.reverse
  rw [List.reverse_reverse] at h2
  exact h2

/-- The whole JSON-isolation pipeline yields a sublist of its input. -/
theorem json_cleaned_sublist (l : List Char) :
    List.Sublist (json_cleaned_chars l) l := by
  unfold json_cleaned_chars
  refine (drop_after_rbrace_sublist _).trans ?_
  refine (List.dropWhile_sublist _).trans ?_
  refine (strip_ws_sublist _).trans ?_
  refine (remove_fences_sublist _).trans ?_
  exact strip_ws_sublist l

/-- The first element surviving `dropWhile` fails the predicate. -/
theorem dropWhile_first_false (p : Char → Bool) :
    ∀ (l : List Char) (c : Char) (t : List Char), l.dropWhile p = c :: t → p c = false := by
  intro l
  induction l with
  | nil => intro c t h; simp at h
  | cons a l ih =>
    intro c t h
    by_cases ha : p a = true
    · rw [List.dropWhile_cons, if_pos ha] at h
      exact ih _ _ h
    · rw [List.dropWhile_cons, if_neg ha] at h
      injection h with h1 _
      subst h1
      simpa using ha

/-- The brace-seeking `dropWhile` stops at an opening brace. -/
theorem dropWhile_lbrace_stop (t : List Char) :
    (lbrace :: t).dropWhile (fun c => ¬ (c = lbrace)) = lbrace :: t := by
  simp [List.dropWhile_cons]

/-- The brace-seeking `dropWhile` skips a non-brace character. -/
theorem dropWhile_lbrace_skip (c : Char) (t : List Char) (hc : ¬ (c = lbrace)) :
    (c :: t).dropWhile (fun c => ¬ (c = lbrace)) =
      t.dropWhile (fun c => ¬ (c = lbrace)) := by
  simp [List.dropWhile_cons, hc]

/-- `has_brace_pair` on a list starting with an opening brace is a
membership test for the closing brace. -/
theorem has_brace_pair_cons_lbrace (t : List Char) :
    has_brace_pair (lbrace :: t) = (lbrace :: t).contains rbrace := by
  rw [has_brace_pair, dropWhile_lbrace_stop]

/-- `has_brace_pair` ignores a leading non-brace character. -/
theorem has_brace_pair_cons_other (c : Char) (t : List Char) (hc : ¬ (c = lbrace)) :
    has_brace_pair (c :: t) = has_brace_pair t := by
  rw [has_brace_pair, has_brace_pair, dropWhile_lbrace_skip c t hc]

/-- `has_brace_pair` holds exactly when an opening brace occurs with a
closing brace somewhere after it. -/
theorem has_brace_pair_iff (l : List Char) :
    has_brace_pair l = true ↔ List.Sublist [ lbrace, rbrace ] l := by
  have hbne : ¬ (lbrace = rbrace) := by decide
  constructor
  · intro h
    induction l with
    | nil => simp [has_brace_pair] at h
    | cons c t ih =>
      by_cases hc : c = lbrace
      · subst hc
        rw [has_brace_pair_cons_lbrace] at h
        have hmem : rbrace ∈ lbrace :: t := (contains_iff_mem_char _ _).mp h
        have hmem2 : rbrace ∈ t := by
          rcases List.mem_cons.mp hmem with heq | hmem2
          · exact absurd heq.symm hbne
          · exact hmem2
        exact (List.singleton_sublist.mpr hmem2).cons₂ lbrace
      · rw [has_brace_pair_cons_other c t hc] at h
        exact (ih h).cons c
  · intro h
    induction l with
    | nil => simp at h
    | cons c t ih =>
      cases h with
      | cons _ h2 =>
        have hhas := ih h2
        by_cases hc : c = lbrace
        · subst hc
          have hmem : rbrace ∈ t := h2.subset (by simp)
          rw [has_brace_pair_cons_lbrace]
          exact (contains_iff_mem_char _ _).mpr (List.mem_cons_of_mem _ hmem)
        · rw [has_brace_pair_cons_other c t hc]
          exact hhas
      | cons₂ _ h2 =>
        have hmem : rbrace ∈ t := List.singleton_sublist.mp h2
        rw [has_brace_pair_cons_lbrace]
        exact (contains_iff_mem_char _ _).mpr (List.mem_cons_of_mem _ hmem)

/-- A nonempty brace-isolated payload starts with an opening brace and ends
with a closing brace, so it contains a brace pair. -/
theorem cleaned_nonempty_pair (m : List Char)
    (h : ¬ (drop_after_rbrace (drop_before_lbrace m) = [])) :
    List.Sublist [ lbrace, rbrace ] (drop_after_rbrace (drop_before_lbrace m)) := by
  set k := drop_before_lbrace m with hk
  set d := drop_after_rbrace k with hd
  -- d ends with a closing brace
  obtain ⟨c0, t0, hrev⟩ : ∃ c0 t0, k.reverse.dropWhile (fun c => ¬ (c = rbrace)) = c0 :: t0 := by
    rcases hx : k.reverse.dropWhile (fun c => ¬ (c = rbrace)) with _ | ⟨c0, t0⟩
    · exfalso
      apply h
      rw [hd, drop_after_rbrace, hx]
      rfl
    · exact ⟨c0, t0, rfl⟩
  have hc0 : c0 = rbrace := by
    have := dropWhile_first_false _ _ _ _ hrev
    simpa using this
  have hdval : d = t0.reverse ++ [ rbrace ] := by
    rw [hd, drop_after_rbrace, hrev, List.reverse_cons, hc0]
  -- d is a prefix of k, which starts with an opening brace
  obtain ⟨u, hu⟩ : ∃ u, u ++ (c0 :: t0) = k.reverse := by
    have hsuf : List.IsSuffix (k.reverse.dropWhile (fun c => ¬ (c = rbrace))) k.reverse :=
      List.dropWhile_suffix _
    rw [hrev] at hsuf
    exact hsuf
  have hkd : d ++ u.reverse = k := by
    have := congrArg List.reverse hu
    rw [List.reverse_append, List.reverse_reverse] at this
    rw [hd, drop_after_rbrace, hrev]
    exact this
  have hkne : ¬ (k = []) := by
    intro hke
    apply h
    rw [hd, hke]
    rfl
  obtain ⟨k1, hk1⟩ : ∃ k1, k = lbrace :: k1 := by
    rcases hx : k with _ | ⟨c1, k1⟩
    · exact absurd hx hkne
    · have hpc := dropWhile_first_false (fun c => ¬ (c = lbrace)) m c1 k1 (hk.symm.trans hx)
      have : c1 = lbrace := by simpa using hpc
      exact ⟨k1, by rw [this]⟩
  -- combine: d = lbrace :: (middle ++ [rbrace])
  rcases ht0 : t0.reverse with _ | ⟨x, xs⟩
  · rw [ht0] at hdval
    rw [hdval, hk1] at hkd
    have hbad : rbrace = lbrace := by
      have := congrArg (fun l => l.headD ' ') hkd
      simpa using this
    exact absurd hbad (by decide)
  · rw [ht0] at hdval
    rw [hdval, hk1] at hkd
    have hx : x = lbrace := by
      have := congrArg (fun l => l.headD ' ') hkd
      simpa using this
    rw [hdval, hx]
    exact (List.sublist_append_right xs [ rbrace ]).cons₂ lbrace

/-- C6: for every raw input in which no opening brace is followed by a
closing brace, the brace-isolation step leaves an empty payload (so the
JSON-parse branch is never reached) and both variants return sentinel
`REVISION_MANUAL` with score 0 and their fixed no-JSON evidence message. -/
theorem c6_no_braces_sentinel (raw : String)
    (h : has_brace_pair raw.toList = false) :
    json_cleaned raw = "" ∧
    normalize_text raw = ⟨"REVISION_MANUAL", 0, JVal.str "JSON ilegible"⟩ ∧
    normalize_hybrid raw =
      ⟨"REVISION_MANUAL", 0, JVal.str "El modelo no retornó un JSON válido."⟩ := by
  have hempty : json_cleaned_chars raw.toList = [] := by
    by_contra hne
    have hpair :=
      cleaned_nonempty_pair (strip_ws (remove_fences (strip_ws raw.toList))) hne
    have hsub : List.Sublist [ lbrace, rbrace ] raw.toList := by
      refine hpair.trans ?_
      refine (drop_after_rbrace_sublist _).trans ?_
      refine (List.dropWhile_sublist _).trans ?_
      refine (strip_ws_sublist _).trans ?_
      refine (remove_fences_sublist _).trans ?_
      exact strip_ws_sublist _
    rw [(has_brace_pair_iff raw.toList).mpr hsub] at h
    exact Bool.noConfusion h
  have hcl : json_cleaned raw = "" := by
    rw [json_cleaned, hempty]
  have hcore : norm_core raw = Except.error NormFailure.emptyPayload := by
    simp only [norm_core, hcl]
    simp
  exact ⟨hcl, by unfold normalize_text; rw [hcore]; rfl,
    by unfold normalize_hybrid; rw [hcore]; rfl⟩

/-- C6, witness: a braceless refusal string hits the sentinel branch. -/
theorem c6_no_braces_sentinel_witness :
    json_cleaned "respuesta sin datos estructurados" = "" ∧
    normalize_text "respuesta sin datos estructurados" =
      ⟨"REVISION_MANUAL", 0, JVal.str "JSON ilegible"⟩ ∧
    normalize_hybrid "respuesta sin datos estructurados" =
      ⟨"REVISION_MANUAL", 0, JVal.str "El modelo no retornó un JSON válido."⟩ :=
  c6_no_braces_sentinel "respuesta sin datos estructurados" (by with_unfolding_all rfl)
